import Mathlib

/-!
Verification of the ai-domain-search backend (src/Backend/app.py and
src/Backend/notifier.py) against its specification.

The two Python files are shallowly embedded below.  External effects are made
explicit parameters: the upstream WhoisXML HTTP exchange becomes an `Upstream`
value handed to the checker, the database table becomes a `List Row` threaded
through the poller cycle, the SMTP send becomes a boolean-returning function,
and `os.getenv` becomes a function `String → Option String`.  Python string
operations used by the code (`strip`, `lower`, the character filter of
`re.sub`) are modelled explicitly on the character lists of Lean strings.
-/

/-- Python `str.strip()` default whitespace set (ASCII part). -/
def pyIsSpace (c : Char) : Bool :=
  c == ' ' || c == '\t' || c == '\n' || c == '\r' || c == '\x0b' || c == '\x0c'

/-- Python `str.strip()`: drop leading and trailing whitespace. -/
def pyStrip (s : String) : String :=
  String.mk (((s.data.dropWhile pyIsSpace).reverse.dropWhile pyIsSpace).reverse)

/-- ASCII lowercasing of one character, as Python `str.lower()` acts on the
ASCII inputs this service handles. -/
def pyLowerChar (c : Char) : Char :=
  if 'A' ≤ c && c ≤ 'Z' then Char.ofNat (c.toNat + 32) else c

/-- Python `str.lower()` (ASCII fragment). -/
def pyLower (s : String) : String := String.mk (s.data.map pyLowerChar)

/-- Outcome of one upstream WhoisXML exchange as the Python code observes it
after `client.get` and `r.json()`: `err` is any raised exception (timeout,
network failure, malformed JSON body, non-string status field — all caught by
the `except` clause), `ok s` a parsed body whose
`DomainInfo.domainAvailability` field is `s`, with `none` when the field is
absent (the code then substitutes the default `"UNKNOWN"`). -/
inductive Upstream where
  | err : Upstream
  | ok : Option String → Upstream
deriving DecidableEq

namespace App

/-- `check_domain_availability` of app.py: on a parsed response it returns
`status.strip().lower() == "available"`; every exception path returns
`False`. -/
def check_domain_availability (u : Upstream) : Bool :=
  match u with
  | .err => false
  | .ok s => pyLower (pyStrip (s.getD "UNKNOWN")) == "available"

end App

namespace Notifier

/-- `check_domain_availability` of notifier.py: on a parsed response it
returns `status == "AVAILABLE"` (no strip, no lowercasing); every exception
path returns `False`. -/
def check_domain_availability (u : Upstream) : Bool :=
  match u with
  | .err => false
  | .ok s => s.getD "UNKNOWN" == "AVAILABLE"

end Notifier

/-- One row of the `domain_notifications` table created by `init_db` in
app.py.  Timestamps are abstract ticks. -/
structure Row where
  id : Nat
  domain_name : String
  email : String
  notified : Bool
  created_at : Nat
  last_checked_at : Option Nat
deriving DecidableEq

namespace Notifier

/-- The pending-rows query of `check_and_notify`:
`SELECT * FROM domain_notifications WHERE notified = 0`. -/
def selectPending (db : List Row) : List Row :=
  db.filter (fun r => r.notified == false)

/-- The row update of `check_and_notify`:
`UPDATE domain_notifications SET notified = 1 WHERE id = %s`, committed
immediately. -/
def updateNotified (db : List Row) (i : Nat) : List Row :=
  db.map (fun r => if r.id == i then { r with notified := true } else r)

/-- One attempted email send of a cycle: the `send_email_notification(email,
domain)` call made while processing the fetched record with this `id`. -/
structure SendEvent where
  rowId : Nat
  sendTo : String
  domain : String
deriving DecidableEq

/-- The per-record loop of `check_and_notify` over the fetched records: for
each record run the availability check on its `domain_name`; when it answers
true attempt the email send to its `email`, and when the send succeeds
persist `notified = 1` for that record's id.  `check` and `send` stand for
the two effectful collaborators (the availability checker composed with its
upstream, and the SMTP send), both boolean-returning as in the source. -/
def processRecords (check : String → Bool) (send : String → String → Bool) :
    List Row → List Row → List Row × List SendEvent
  | [], db => (db, [])
  | record :: rest, db =>
    if check record.domain_name then
      let db1 := if send record.email record.domain_name then
        updateNotified db record.id else db
      let out := processRecords check send rest db1
      (out.1, ⟨record.id, record.email, record.domain_name⟩ :: out.2)
    else
      processRecords check send rest db

/-- `check_and_notify` of notifier.py: fetch the rows with `notified = 0`
and run the per-record loop over that snapshot (an empty fetch just ends the
cycle, which the loop's base case covers).  Returns the table after the
cycle together with the attempted email sends of the cycle. -/
def check_and_notify (check : String → Bool) (send : String → String → Bool)
    (db : List Row) : List Row × List SendEvent :=
  processRecords check send (selectPending db) db

/-- How one poller cycle may change a single stored row in place: it is
untouched, or exactly its `notified` flag is raised. -/
def rowEvolve (r r2 : Row) : Prop :=
  r2 = r ∨ r2 = { r with notified := true }

end Notifier

namespace App

/-- `sanitize_word` of app.py: strip, lowercase, then drop every character
outside `[a-z0-9]` (the `re.sub` filter). -/
def sanitize_word (w : String) : String :=
  String.mk ((pyLower (pyStrip w)).data.filter fun c =>
    ('a' ≤ c && c ≤ 'z') || ('0' ≤ c && c ≤ '9'))

def PREFIXES : List String := ["get", "try", "go", "my", "join", "the"]

def SUFFIXES : List String := ["app", "hq", "site", "online", "tech", "co", "now"]

def TLDS : List String := [".com", ".io", ".co", ".xyz", ".net"]

/-- The idea strings `generate_domain_ideas` inserts into the Python set
`ideas`, in insertion order, before deduplication and truncation: the
prefixed forms, the suffixed and hyphenated forms, the bare keyword, one
extra suffix form (`rsuf` stands for the `random.choice(SUFFIXES)` draw),
and the first-three-by-first-three prefix-suffix grid.  `k` is the already
sanitized keyword. -/
def ideasList (k : String) (rsuf : String) : List String :=
  (PREFIXES.map fun pre => pre ++ k) ++
    (SUFFIXES.flatMap fun suf => [k ++ suf, k ++ "-" ++ suf]) ++
    [k, k ++ rsuf] ++
    ((PREFIXES.take 3).flatMap fun pre =>
      (SUFFIXES.take 3).map fun suf => pre ++ k ++ suf)

/-- `generate_domain_ideas` of app.py.  The Python `set` built from the
inserted ideas and then listed by `list(ideas)` is modelled by the parameter
`setList`, the enumeration the set produces (set iteration order is
unspecified; the claims assume only that it lists the inserted strings
without duplicates).  `rsuf` is the `random.choice(SUFFIXES)` draw and
`rtld` the per-name `random.choice(TLDS)` draw.  The listing is truncated to
`limit` and each surviving name is suffixed with its random TLD. -/
def generate_domain_ideas (keyword : String)
    (setList : List String → List String) (rsuf : String)
    (rtld : String → String) (limit : Nat) : List String :=
  ((setList (ideasList (sanitize_word keyword) rsuf)).take limit).map
    fun name => name ++ rtld name

/-- Does the string consist of the name `b` followed by one of the
configured TLDs? -/
def endsWithTld (b s : String) : Bool := TLDS.any fun t => s == b ++ t

/-- Result of one alternative-candidate HTTP task, as
`asyncio.gather(..., return_exceptions=True)` hands it back: `exn` an
exception object in the result list, `badJson` a response whose `.json()`
raises, `ok s` a parsed body with availability status `s` (`none` when the
field is absent and the default `"UNKNOWN"` is substituted). -/
inductive TaskResult where
  | exn : TaskResult
  | badJson : TaskResult
  | ok : Option String → TaskResult
deriving DecidableEq

/-- Did the task deliver a parseable body (the only case in which the
source's loop appends a result entry)? -/
def TaskResult.isParsed : TaskResult → Bool
  | .ok _ => true
  | _ => false

/-- The candidate list of `suggest_alternatives`: the extracted base label
under every configured TLD other than the supplied one.  `base` and `sfx`
stand for `tldextract`'s `ext.domain.lower()` and `ext.suffix`. -/
def altCandidates (base sfx : String) : List String :=
  (TLDS.filter fun tld => tld ≠ "." ++ sfx).map fun tld => base ++ tld

/-- The loop body of `suggest_alternatives` for one `(alt, resp)` pair:
`none` when the pair is skipped (an exception hits `continue`, an
unparseable body the inner `except: pass`), otherwise the appended
`{"fqdn": alt, "available": status.strip().lower() == "available"}`
entry. -/
def parseEntry (p : String × TaskResult) : Option (String × Bool) :=
  match p.2 with
  | .exn => none
  | .badJson => none
  | .ok s => some (p.1, pyLower (pyStrip (s.getD "UNKNOWN")) == "available")

/-- `suggest_alternatives` of app.py, given the gathered per-candidate task
results (zipped with the candidates exactly as the source zips them); if no
pair contributed an entry, every candidate is returned marked
unavailable. -/
def suggest_alternatives (base sfx : String) (resps : List TaskResult) :
    List (String × Bool) :=
  let alternatives := altCandidates base sfx
  let results := (alternatives.zip resps).filterMap parseEntry
  if results.isEmpty then alternatives.map (fun alt => (alt, false)) else results

/-- The JSON body of a `POST /notify` request: each field absent or a
string (the code turns an absent or empty field into `""` via `or ""`). -/
structure NotifyBody where
  domain : Option String
  email : Option String
deriving DecidableEq

/-- Does `[^@]` match the head of the list (one more character, not `@`)? -/
def headNonAt : List Char → Bool
  | [] => false
  | c :: _ => decide (c ≠ '@')

/-- Does `[^@]*\.[^@]+` match a prefix of the list?  Backtracking lets
`[^@]*` swallow any run of non-`@` characters (dots included) before the
literal dot. -/
def dotTail : List Char → Bool
  | [] => false
  | c :: rest =>
    if c = '@' then false
    else (decide (c = '.') && headNonAt rest) || dotTail rest

/-- Does `[^@]+\.[^@]+` match a prefix of the list? -/
def atTail : List Char → Bool
  | [] => false
  | c :: rest => decide (c ≠ '@') && dotTail rest

/-- Skip the `[^@]+` before the `@` of the pattern: consume non-`@`
characters until the first `@`, then require `[^@]+\.[^@]+` after it. -/
def afterFirstAt : List Char → Bool
  | [] => false
  | c :: rest => if c = '@' then atTail rest else afterFirstAt rest

/-- Python `re.match(r"[^@]+@[^@]+\.[^@]+", email)` as a Boolean: the
pattern must match a prefix of the string, so there must be at least one
non-`@` character, then the first `@`, then at least one non-`@` character,
a dot, and one more non-`@` character before any further `@`. -/
def emailMatch (email : String) : Bool :=
  match email.data with
  | [] => false
  | c :: rest => decide (c ≠ '@') && afterFirstAt rest

/-- What `POST /notify` answers: a 400 with a message, a 500 after a failed
insert, or the success payload echoing domain and email. -/
inductive NotifyOutcome where
  | clientError : String → NotifyOutcome
  | serverError : NotifyOutcome
  | accepted : String → String → NotifyOutcome
deriving DecidableEq

/-- `subscribe_for_notification` (`POST /notify`) of app.py: normalize the
two fields, reject missing input and then a malformed email with a 400
before any database work, and otherwise insert one `notified = false` row
and commit.  `dbWriteOk` stands for the INSERT and commit succeeding; when
it fails the transaction is rolled back, the table is left as it was and a
500 is returned.  `newId` and `now` stand for the auto-increment id and
`CURRENT_TIMESTAMP` the database assigns to the new row. -/
def subscribe_for_notification (body : NotifyBody) (dbWriteOk : Bool)
    (table : List Row) (newId : Nat) (now : Nat) : NotifyOutcome × List Row :=
  let domain := pyLower (pyStrip (body.domain.getD ""))
  let email := pyLower (pyStrip (body.email.getD ""))
  if domain = "" || email = "" then
    (.clientError "domain and email required", table)
  else if !emailMatch email then
    (.clientError "invalid email", table)
  else if dbWriteOk then
    (.accepted domain email, table ++ [⟨newId, domain, email, false, now, none⟩])
  else
    (.serverError, table)

end App

/-- The process environment, as `os.getenv` reads it. -/
def Env : Type := String → Option String

namespace App

/-- The module-level configuration of app.py. -/
structure AppConfig where
  whoisxml_api_key : String
  db_host : String
  db_user : String
  db_password : String
  db_name : String
  app_name : String
deriving DecidableEq

/-- The import-time configuration code of app.py: read the environment with
the source's defaults, and raise `ValueError("WHOISXML_API_KEY missing in
.env")` when the key is absent or empty (Python `if not WHOISXML_API_KEY`
treats both as falsy). -/
def app_startup (env : Env) : Except String AppConfig :=
  match env "WHOISXML_API_KEY" with
  | none => .error "WHOISXML_API_KEY missing in .env"
  | some k =>
    if k = "" then .error "WHOISXML_API_KEY missing in .env"
    else .ok
      { whoisxml_api_key := k
        db_host := (env "DB_HOST").getD "localhost"
        db_user := (env "DB_USER").getD "root"
        db_password := (env "DB_PASSWORD").getD ""
        db_name := (env "DB_NAME").getD "domain_saas"
        app_name := (env "APP_NAME").getD "Domain Suggester SaaS" }

end App

namespace Notifier

/-- The module-level configuration of notifier.py: every value is read with
plain `os.getenv` and stored as read, possibly absent — no presence check
anywhere.  Only `EMAIL_PORT` is processed further, by `int(...)`. -/
structure NotifierConfig where
  whoisxml_api_key : Option String
  db_host : Option String
  db_user : Option String
  db_password : Option String
  db_name : Option String
  email_host : Option String
  email_port : Nat
  email_user : Option String
  email_password : Option String
deriving DecidableEq

/-- The import-time configuration code of notifier.py.  The only raise its
module import can produce is `int()` on a malformed `EMAIL_PORT` value; the
WHOIS key in particular is taken as-is, `None` included. -/
def notifier_startup (env : Env) : Except String NotifierConfig :=
  let readPort : Except String Nat :=
    match env "EMAIL_PORT" with
    | none => .ok 587
    | some s =>
      match s.toNat? with
      | none => .error "invalid literal for int()"
      | some n => .ok n
  match readPort with
  | .error e => .error e
  | .ok port => .ok
      { whoisxml_api_key := env "WHOISXML_API_KEY"
        db_host := env "DB_HOST"
        db_user := env "DB_USER"
        db_password := env "DB_PASSWORD"
        db_name := env "DB_NAME"
        email_host := env "EMAIL_HOST"
        email_port := port
        email_user := env "EMAIL_USER"
        email_password := env "EMAIL_PASSWORD" }

/-- The delay of the notifier's main loop between two cycles:
`time.sleep(30)`, a literal in the source.  It is a function of the process
environment only to state that the environment does not influence it — no
configuration value is consulted. -/
def notifier_sleep_seconds (_env : Env) : Nat := 30

/-- The cadence the notifier's own log lines announce ("Checking every 6
hours...", "Sleeping for 6 hours..."). -/
def announced_sleep_seconds : Nat := 6 * 60 * 60

end Notifier

namespace Notifier

theorem rowEvolve_refl (r : Row) : rowEvolve r r := Or.inl rfl

theorem row_set_notified_self {r : Row} (h : r.notified = true) :
    { r with notified := true } = r := by
  cases r
  simp_all

theorem rowEvolve_trans {a b c : Row} (h1 : rowEvolve a b) (h2 : rowEvolve b c) :
    rowEvolve a c := by
  rcases h1 with rfl | rfl
  · exact h2
  · rcases h2 with rfl | rfl
    · exact Or.inr rfl
    · cases a
      exact Or.inr rfl

theorem rowEvolve_fields {r r2 : Row} (h : rowEvolve r r2) :
    r2.id = r.id ∧ r2.domain_name = r.domain_name ∧ r2.email = r.email ∧
      r2.created_at = r.created_at ∧ r2.last_checked_at = r.last_checked_at := by
  rcases h with rfl | rfl <;> exact ⟨rfl, rfl, rfl, rfl, rfl⟩

theorem rowEvolve_of_true {r r2 : Row} (h : rowEvolve r r2)
    (hn : r.notified = true) : r2 = r := by
  rcases h with rfl | rfl
  · rfl
  · exact row_set_notified_self hn

theorem updateNotified_evolve (db : List Row) (i : Nat) :
    List.Forall₂ rowEvolve db (updateNotified db i) := by
  rw [updateNotified, List.forall₂_map_right_iff]
  rw [List.forall₂_same]
  intro r _
  by_cases h : r.id == i <;> simp [h, rowEvolve]

theorem forall₂_rowEvolve_trans {a b c : List Row}
    (h1 : List.Forall₂ rowEvolve a b) (h2 : List.Forall₂ rowEvolve b c) :
    List.Forall₂ rowEvolve a c := by
  induction h1 generalizing c with
  | nil =>
    cases h2
    exact List.Forall₂.nil
  | cons hab _ ih =>
    cases h2 with
    | cons hbc h2 => exact List.Forall₂.cons (rowEvolve_trans hab hbc) (ih h2)

theorem forall₂_rowEvolve_refl (db : List Row) :
    List.Forall₂ rowEvolve db db :=
  List.forall₂_same.2 fun r _ => rowEvolve_refl r

theorem processRecords_evolve (check : String → Bool)
    (send : String → String → Bool) :
    ∀ (recs db : List Row),
      List.Forall₂ rowEvolve db (processRecords check send recs db).1 := by
  intro recs
  induction recs with
  | nil => exact fun db => forall₂_rowEvolve_refl db
  | cons record rest ih =>
    intro db
    by_cases hc : check record.domain_name
    · by_cases hs : send record.email record.domain_name
      · simpa [processRecords, hc, hs] using
          forall₂_rowEvolve_trans (updateNotified_evolve db record.id)
            (ih (updateNotified db record.id))
      · simpa [processRecords, hc, hs] using ih db
    · simpa [processRecords, hc] using ih db

theorem check_and_notify_evolve (check : String → Bool)
    (send : String → String → Bool) (db : List Row) :
    List.Forall₂ rowEvolve db (check_and_notify check send db).1 :=
  processRecords_evolve check send (selectPending db) db

theorem check_and_notify_length (check : String → Bool)
    (send : String → String → Bool) (db : List Row) :
    (check_and_notify check send db).1.length = db.length :=
  (check_and_notify_evolve check send db).length_eq.symm

theorem updateNotified_get (db : List Row) (j i : Nat) (h : i < db.length)
    (h2 : i < (updateNotified db j).length) :
    (updateNotified db j).get ⟨i, h2⟩ =
      if (db.get ⟨i, h⟩).id == j then { db.get ⟨i, h⟩ with notified := true }
      else db.get ⟨i, h⟩ := by
  simp [updateNotified, List.get_eq_getElem, List.getElem_map]

theorem processRecords_flip (check : String → Bool)
    (send : String → String → Bool) :
    ∀ (recs db : List Row) (i : Nat) (h : i < db.length)
      (h2 : i < (processRecords check send recs db).1.length),
      (db.get ⟨i, h⟩).notified = false →
      ((processRecords check send recs db).1.get ⟨i, h2⟩).notified = true →
      ∃ record ∈ recs, record.id = (db.get ⟨i, h⟩).id ∧
        check record.domain_name = true ∧
        send record.email record.domain_name = true := by
  intro recs
  induction recs with
  | nil =>
    intro db i h h2 hfalse htrue
    have hft : (db.get ⟨i, h⟩).notified = true := htrue
    rw [hfalse] at hft
    cases hft
  | cons record rest ih =>
    intro db i h h2 hfalse htrue
    by_cases hc : check record.domain_name
    · by_cases hs : send record.email record.domain_name
      · have hlen : i < (updateNotified db record.id).length := by
          simpa [updateNotified] using h
        by_cases hid : (db.get ⟨i, h⟩).id == record.id
        · exact ⟨record, List.mem_cons_self record rest,
            (Nat.beq_eq_true_eq _ _ |>.mp hid).symm, hc, hs⟩
        · have hg : (updateNotified db record.id).get ⟨i, hlen⟩ = db.get ⟨i, h⟩ := by
            rw [updateNotified_get db record.id i h hlen, if_neg (by simp_all)]
          have h2a : i < (processRecords check send rest
              (updateNotified db record.id)).1.length := by
            simpa [processRecords, hc, hs] using h2
          have ht2 : ((processRecords check send rest
              (updateNotified db record.id)).1.get ⟨i, h2a⟩).notified = true := by
            have heq : (processRecords check send (record :: rest) db).1 =
                (processRecords check send rest (updateNotified db record.id)).1 := by
              simp [processRecords, hc, hs]
            rw [← htrue]
            congr 1
            simp [heq]
          obtain ⟨r2, hr2mem, hr2id, hr2c, hr2s⟩ :=
            ih (updateNotified db record.id) i hlen h2a (hg ▸ hfalse) ht2
          exact ⟨r2, List.mem_cons_of_mem record hr2mem, hg ▸ hr2id, hr2c, hr2s⟩
      · have h2a : i < (processRecords check send rest db).1.length := by
          simpa [processRecords, hc, hs] using h2
        have ht2 : ((processRecords check send rest db).1.get ⟨i, h2a⟩).notified
            = true := by
          have heq : (processRecords check send (record :: rest) db).1 =
              (processRecords check send rest db).1 := by
            simp [processRecords, hc, hs]
          rw [← htrue]
          congr 1
          simp [heq]
        obtain ⟨r2, hr2mem, hr2id, hr2c, hr2s⟩ := ih db i h h2a hfalse ht2
        exact ⟨r2, List.mem_cons_of_mem record hr2mem, hr2id, hr2c, hr2s⟩
    · have h2a : i < (processRecords check send rest db).1.length := by
        simpa [processRecords, hc] using h2
      have ht2 : ((processRecords check send rest db).1.get ⟨i, h2a⟩).notified
          = true := by
        have heq : (processRecords check send (record :: rest) db).1 =
            (processRecords check send rest db).1 := by
          simp [processRecords, hc]
        rw [← htrue]
        congr 1
        simp [heq]
      obtain ⟨r2, hr2mem, hr2id, hr2c, hr2s⟩ := ih db i h h2a hfalse ht2
      exact ⟨r2, List.mem_cons_of_mem record hr2mem, hr2id, hr2c, hr2s⟩

theorem processRecords_sends (check : String → Bool)
    (send : String → String → Bool) :
    ∀ (recs db : List Row),
      (processRecords check send recs db).2 =
        (recs.filter (fun r => check r.domain_name)).map
          (fun r => ⟨r.id, r.email, r.domain_name⟩) := by
  intro recs
  induction recs with
  | nil => intro db; rfl
  | cons record rest ih =>
    intro db
    by_cases hc : check record.domain_name
    · by_cases hs : send record.email record.domain_name <;>
        simp [processRecords, hc, hs, List.filter_cons, ih]
    · simp [processRecords, hc, List.filter_cons, ih]

theorem id_inj {db : List Row} (hid : (db.map Row.id).Nodup) {a b : Row}
    (ha : a ∈ db) (hb : b ∈ db) (hab : a.id = b.id) : a = b := by
  induction db with
  | nil => cases ha
  | cons r rest ih =>
    rw [List.map_cons, List.nodup_cons] at hid
    rcases List.mem_cons.mp ha with rfl | ha2
    · rcases List.mem_cons.mp hb with rfl | hb2
      · rfl
      · exact absurd (hab ▸ List.mem_map_of_mem Row.id hb2) hid.1
    · rcases List.mem_cons.mp hb with rfl | hb2
      · exact absurd (hab ▸ List.mem_map_of_mem Row.id ha2) hid.1
      · exact ih hid.2 ha2 hb2

theorem forall₂_rowEvolve_ids {a b : List Row}
    (h : List.Forall₂ rowEvolve a b) : b.map Row.id = a.map Row.id := by
  induction h with
  | nil => rfl
  | cons hab _ ih =>
    simp [List.map_cons, ih, (rowEvolve_fields hab).1]

theorem selectPending_sub {db : List Row} {r : Row}
    (h : r ∈ selectPending db) : r ∈ db :=
  List.mem_of_mem_filter h

theorem selectPending_false {db : List Row} {r : Row}
    (h : r ∈ selectPending db) : r.notified = false := by
  have := List.of_mem_filter h
  simpa using this

end Notifier

/-- C2: the claim states that both checkers accept the status `"AVAILABLE"`
in any letter case.  The poller-path checker compares the raw status to the
literal `"AVAILABLE"`: on the lowercase status `"available"` it answers
`false` (not available) while the API-path checker answers `true`, refuting
the claim at this concrete input. -/
theorem c2_case_sensitivity_counterexample :
    Notifier.check_domain_availability (Upstream.ok (some "available")) = false ∧
    App.check_domain_availability (Upstream.ok (some "available")) = true := by
  exact ⟨rfl, by decide⟩

/-- C2 (amended): the API-path checker accepts exactly the statuses whose
stripped, lowercased form is `"available"` (hence any letter case), while the
poller-path checker accepts only the exact string `"AVAILABLE"`; on a timeout
or any error both return the not-available default `false`, which is the same
value they return for an unavailable status (the embedding has no distinct
`Unknown` result). -/
theorem c2_checker_behaviour :
    (∀ s : String, pyLower (pyStrip s) = "available" →
      App.check_domain_availability (Upstream.ok (some s)) = true) ∧
    (∀ s : String, pyLower (pyStrip s) ≠ "available" →
      App.check_domain_availability (Upstream.ok (some s)) = false) ∧
    (∀ s : String, s ≠ "AVAILABLE" →
      Notifier.check_domain_availability (Upstream.ok (some s)) = false) ∧
    Notifier.check_domain_availability (Upstream.ok (some "AVAILABLE")) = true ∧
    App.check_domain_availability Upstream.err = false ∧
    Notifier.check_domain_availability Upstream.err = false := by
  refine ⟨?_, ?_, ?_, rfl, rfl, rfl⟩
  · intro s h
    simp [App.check_domain_availability, h]
  · intro s h
    simp [App.check_domain_availability, h]
  · intro s h
    simp [Notifier.check_domain_availability, h]

/-- C7: neither checker lets a failure escape: the embedding of each is a
total function (the Python `try`/`except` catches every exception inside the
call), and every failure path — a raised exception (`err`), or a parsed body
with the status field missing (`ok none`, where the default `"UNKNOWN"` is
substituted) — yields the not-available default `false` in both the API-path
and the poller-path implementation. -/
theorem c7_failures_absorbed :
    App.check_domain_availability Upstream.err = false ∧
    Notifier.check_domain_availability Upstream.err = false ∧
    App.check_domain_availability (Upstream.ok none) = false ∧
    Notifier.check_domain_availability (Upstream.ok none) = false ∧
    (∀ u : Upstream, App.check_domain_availability u = true →
      ∃ s : String, u = Upstream.ok (some s)) ∧
    (∀ u : Upstream, Notifier.check_domain_availability u = true →
      u = Upstream.ok (some "AVAILABLE")) := by
  refine ⟨rfl, rfl, by decide, rfl, ?_, ?_⟩
  · intro u h
    match u with
    | .err => exact absurd h (by decide)
    | .ok none => exact absurd h (by decide)
    | .ok (some s) => exact ⟨s, rfl⟩
  · intro u h
    match u with
    | .err => exact absurd h (by decide)
    | .ok none => exact absurd h (by decide)
    | .ok (some s) =>
      have hs : s = "AVAILABLE" := by
        have := h
        simpa [Notifier.check_domain_availability] using this
      simp [hs]

/-- C1: per stored row, one poller cycle raises `notified` from false to
true at most once, and only when the availability check of that row's
`domain_name` answered true and the email send to that row's `email`
succeeded; a row whose `notified` is true is returned unchanged, is not
selected by the pending-rows query any more, and a second cycle attempts no
send for it.  Row ids are assumed distinct, as the AUTO_INCREMENT primary
key guarantees. -/
theorem c1_notified_at_most_once
    (check1 check2 : String → Bool) (send1 send2 : String → String → Bool)
    (db : List Row) (hid : (db.map Row.id).Nodup)
    (i : Nat) (h : i < db.length)
    (h1 : i < (Notifier.check_and_notify check1 send1 db).1.length) :
    ((db.get ⟨i, h⟩).notified = true →
      (Notifier.check_and_notify check1 send1 db).1.get ⟨i, h1⟩ = db.get ⟨i, h⟩) ∧
    ((db.get ⟨i, h⟩).notified = false →
      ((Notifier.check_and_notify check1 send1 db).1.get ⟨i, h1⟩).notified = true →
      check1 (db.get ⟨i, h⟩).domain_name = true ∧
        send1 (db.get ⟨i, h⟩).email (db.get ⟨i, h⟩).domain_name = true) ∧
    (((Notifier.check_and_notify check1 send1 db).1.get ⟨i, h1⟩).notified = true →
      (Notifier.check_and_notify check1 send1 db).1.get ⟨i, h1⟩ ∉
        Notifier.selectPending (Notifier.check_and_notify check1 send1 db).1 ∧
      ∀ e ∈ (Notifier.check_and_notify check2 send2
          (Notifier.check_and_notify check1 send1 db).1).2,
        e.rowId ≠ ((Notifier.check_and_notify check1 send1 db).1.get ⟨i, h1⟩).id) := by
  have hev := Notifier.check_and_notify_evolve check1 send1 db
  have hpt : Notifier.rowEvolve (db.get ⟨i, h⟩)
      ((Notifier.check_and_notify check1 send1 db).1.get ⟨i, h1⟩) :=
    (List.forall₂_iff_get.mp hev).2 i h h1
  refine ⟨fun ht => Notifier.rowEvolve_of_true hpt ht, ?_, ?_⟩
  · intro hf ht
    obtain ⟨record, hmem, hrecid, hc, hs⟩ :=
      Notifier.processRecords_flip check1 send1 (Notifier.selectPending db) db
        i h h1 hf ht
    have heq : record = db.get ⟨i, h⟩ :=
      Notifier.id_inj hid (Notifier.selectPending_sub hmem)
        (List.get_mem db i h) hrecid
    rw [heq] at hc hs
    exact ⟨hc, hs⟩
  · intro ht
    have hid2 : ((Notifier.check_and_notify check1 send1 db).1.map Row.id).Nodup := by
      rw [Notifier.forall₂_rowEvolve_ids hev]
      exact hid
    constructor
    · intro hmem
      have hft := Notifier.selectPending_false hmem
      rw [ht] at hft
      cases hft
    · intro e he heq
      simp only [Notifier.check_and_notify] at he
      rw [Notifier.processRecords_sends] at he
      obtain ⟨r2, hr2, hre⟩ := List.mem_map.mp he
      have hr2p := List.mem_of_mem_filter hr2
      have hr2false := Notifier.selectPending_false hr2p
      have : r2 = (Notifier.check_and_notify check1 send1 db).1.get ⟨i, h1⟩ :=
        Notifier.id_inj hid2 (Notifier.selectPending_sub hr2p)
          (List.get_mem _ i h1) (by rw [← heq, ← hre])
      rw [this, ht] at hr2false
      cases hr2false

/-- Closed instance of C1 on a one-row table whose row is already notified:
the cycle returns it unchanged. -/
theorem c1_notified_at_most_once_witness :
    (Notifier.check_and_notify (fun _ => true) (fun _ _ => true)
        [⟨1, "a.com", "u@x.com", true, 0, none⟩]).1.get ⟨0, by decide⟩ =
      (⟨1, "a.com", "u@x.com", true, 0, none⟩ : Row) :=
  (c1_notified_at_most_once (fun _ => true) (fun _ => true) (fun _ _ => true)
    (fun _ _ => true) [⟨1, "a.com", "u@x.com", true, 0, none⟩] (by decide)
    0 (by decide) (by decide)).1 (by decide)

/-- C10: one poller cycle never inserts or deletes rows (the table keeps its
length) and never writes any column other than `notified`: `id`,
`domain_name`, `email`, `created_at` and `last_checked_at` of every row are
preserved — in particular `last_checked_at` is never updated — and the
`notified` column changes only from false to true, only for a row whose
availability check and email send both succeeded (`id`s assumed distinct,
as the primary key guarantees). -/
theorem c10_cycle_frame (check : String → Bool) (send : String → String → Bool)
    (db : List Row) (i : Nat) (h : i < db.length)
    (h1 : i < (Notifier.check_and_notify check send db).1.length) :
    (Notifier.check_and_notify check send db).1.length = db.length ∧
    ((Notifier.check_and_notify check send db).1.get ⟨i, h1⟩).id =
      (db.get ⟨i, h⟩).id ∧
    ((Notifier.check_and_notify check send db).1.get ⟨i, h1⟩).domain_name =
      (db.get ⟨i, h⟩).domain_name ∧
    ((Notifier.check_and_notify check send db).1.get ⟨i, h1⟩).email =
      (db.get ⟨i, h⟩).email ∧
    ((Notifier.check_and_notify check send db).1.get ⟨i, h1⟩).created_at =
      (db.get ⟨i, h⟩).created_at ∧
    ((Notifier.check_and_notify check send db).1.get ⟨i, h1⟩).last_checked_at =
      (db.get ⟨i, h⟩).last_checked_at ∧
    ((db.get ⟨i, h⟩).notified = true →
      (Notifier.check_and_notify check send db).1.get ⟨i, h1⟩ = db.get ⟨i, h⟩) ∧
    ((db.map Row.id).Nodup → (db.get ⟨i, h⟩).notified = false →
      ((Notifier.check_and_notify check send db).1.get ⟨i, h1⟩).notified = true →
      check (db.get ⟨i, h⟩).domain_name = true ∧
        send (db.get ⟨i, h⟩).email (db.get ⟨i, h⟩).domain_name = true) := by
  have hev := Notifier.check_and_notify_evolve check send db
  have hpt : Notifier.rowEvolve (db.get ⟨i, h⟩)
      ((Notifier.check_and_notify check send db).1.get ⟨i, h1⟩) :=
    (List.forall₂_iff_get.mp hev).2 i h h1
  obtain ⟨hfid, hfdom, hfem, hfcr, hflast⟩ := Notifier.rowEvolve_fields hpt
  refine ⟨Notifier.check_and_notify_length check send db, hfid, hfdom, hfem,
    hfcr, hflast, fun ht => Notifier.rowEvolve_of_true hpt ht, ?_⟩
  intro hid hf ht
  obtain ⟨record, hmem, hrecid, hc, hs⟩ :=
    Notifier.processRecords_flip check send (Notifier.selectPending db) db
      i h h1 hf ht
  have heq : record = db.get ⟨i, h⟩ :=
    Notifier.id_inj hid (Notifier.selectPending_sub hmem)
      (List.get_mem db i h) hrecid
  rw [heq] at hc hs
  exact ⟨hc, hs⟩

/-- Closed instance of C10: a cycle over a one-row pending table whose check
fails leaves every column of the row as it was. -/
theorem c10_cycle_frame_witness :
    ((Notifier.check_and_notify (fun _ => false) (fun _ _ => false)
        [⟨7, "x.org", "p@q.io", false, 3, some 5⟩]).1.get
      ⟨0, by decide⟩).last_checked_at =
      ((⟨7, "x.org", "p@q.io", false, 3, some 5⟩ : Row) : Row).last_checked_at :=
  (c10_cycle_frame (fun _ => false) (fun _ _ => false)
    [⟨7, "x.org", "p@q.io", false, 3, some 5⟩] 0 (by decide)
    (by decide)).2.2.2.2.2.1

/-- C4: a send failure on one pending row does not abort the cycle for the
remaining rows: with two pending rows where the first row's check succeeds
but its email send fails, and the second row's check and send both succeed,
the cycle leaves the first row with `notified = false` and sets the second
row's `notified` to true. -/
theorem c4_row_isolation (check : String → Bool) (send : String → String → Bool)
    (r1 r2 : Row) (h1 : r1.notified = false) (h2 : r2.notified = false)
    (hid : r1.id ≠ r2.id) (hc1 : check r1.domain_name = true)
    (hs1 : send r1.email r1.domain_name = false)
    (hc2 : check r2.domain_name = true)
    (hs2 : send r2.email r2.domain_name = true) :
    (Notifier.check_and_notify check send [r1, r2]).1 =
      [r1, { r2 with notified := true }] := by
  simp [Notifier.check_and_notify, Notifier.selectPending,
    Notifier.processRecords, Notifier.updateNotified, List.filter_cons,
    h1, h2, hc1, hs1, hc2, hs2, hid]

/-- Closed instance of C4: the first row's send fails, the second row's
succeeds; the cycle keeps row one pending and notifies row two. -/
theorem c4_row_isolation_witness :
    (Notifier.check_and_notify (fun _ => true) (fun e _ => e == "b@x.com")
        [⟨1, "a.com", "a@x.com", false, 0, none⟩,
          ⟨2, "b.com", "b@x.com", false, 0, none⟩]).1 =
      [⟨1, "a.com", "a@x.com", false, 0, none⟩,
        ⟨2, "b.com", "b@x.com", true, 0, none⟩] :=
  c4_row_isolation (fun _ => true) (fun e _ => e == "b@x.com")
    ⟨1, "a.com", "a@x.com", false, 0, none⟩
    ⟨2, "b.com", "b@x.com", false, 0, none⟩
    (by decide) (by decide) (by decide) (by decide) (by decide) (by decide)
    (by decide)

theorem string_append_left_inj (base : String) :
    Function.Injective fun t => base ++ t := by
  intro t1 t2 h
  apply String.ext
  have h2 := congrArg String.data h
  simp only [String.data_append] at h2
  exact List.append_cancel_left h2

theorem altCandidates_nodup (base sfx : String) :
    (App.altCandidates base sfx).Nodup := by
  unfold App.altCandidates
  exact List.Nodup.map (string_append_left_inj base)
    (List.Nodup.filter _ (by decide))

theorem parseEntry_none {p : String × App.TaskResult}
    (h : p.2.isParsed = false) : App.parseEntry p = none := by
  rcases p with ⟨a, r⟩
  cases r <;> simp_all [App.parseEntry, App.TaskResult.isParsed]

theorem parseEntry_some {p : String × App.TaskResult} {q : String × Bool}
    (h : App.parseEntry p = some q) :
    ∃ s : Option String, p.2 = App.TaskResult.ok s ∧
      q = (p.1, pyLower (pyStrip (s.getD "UNKNOWN")) == "available") := by
  rcases p with ⟨a, r⟩
  cases r with
  | exn => simp [App.parseEntry] at h
  | badJson => simp [App.parseEntry] at h
  | ok s => exact ⟨s, rfl, by simpa [App.parseEntry] using h.symm⟩

/-- C3: the claim states that when one upstream call throws and the others
succeed, the failing candidate still appears in the result, marked
unavailable.  For the unavailable domain example.com, with the
first candidate's task raising and the other three parsing as available,
the code's `continue` drops the failing candidate: only three entries come
back and example.io is absent altogether. -/
theorem c3_skipped_candidate_counterexample :
    App.suggest_alternatives "example" "com"
        [App.TaskResult.exn, App.TaskResult.ok (some "AVAILABLE"),
          App.TaskResult.ok (some "AVAILABLE"),
          App.TaskResult.ok (some "AVAILABLE")] =
      [("example.co", true), ("example.xyz", true), ("example.net", true)] ∧
    (∀ p ∈ App.suggest_alternatives "example" "com"
        [App.TaskResult.exn, App.TaskResult.ok (some "AVAILABLE"),
          App.TaskResult.ok (some "AVAILABLE"),
          App.TaskResult.ok (some "AVAILABLE")],
      p.1 ≠ "example.io") := by
  constructor
  · rfl
  · decide

/-- C3 (amended): the result always stays within the candidate list (one
entry per *successfully parsed* candidate, never more than the candidate
count): a candidate whose task parsed contributes its entry with its real
status; when no task parsed, every candidate is returned marked unavailable;
but a candidate whose task raised or failed to parse is omitted from the
result whenever at least one other task parsed — it does not appear marked
unavailable as the original claim states. -/
theorem c3_alternatives_behaviour (base sfx : String)
    (resps : List App.TaskResult) :
    ((App.suggest_alternatives base sfx resps).length ≤
      (App.altCandidates base sfx).length) ∧
    (∀ p ∈ App.suggest_alternatives base sfx resps,
      p.1 ∈ App.altCandidates base sfx) ∧
    ((∀ p ∈ (App.altCandidates base sfx).zip resps, p.2.isParsed = false) →
      App.suggest_alternatives base sfx resps =
        (App.altCandidates base sfx).map fun alt => (alt, false)) ∧
    (∀ (i : Nat) (hi : i < (App.altCandidates base sfx).length)
        (hr : i < resps.length) (s : Option String),
      resps.get ⟨i, hr⟩ = App.TaskResult.ok s →
      ((App.altCandidates base sfx).get ⟨i, hi⟩,
        pyLower (pyStrip (s.getD "UNKNOWN")) == "available") ∈
          App.suggest_alternatives base sfx resps) ∧
    (∀ (i : Nat) (hi : i < (App.altCandidates base sfx).length)
        (hr : i < resps.length),
      (resps.get ⟨i, hr⟩).isParsed = false →
      (∃ p ∈ (App.altCandidates base sfx).zip resps, p.2.isParsed = true) →
      ∀ b : Bool, ((App.altCandidates base sfx).get ⟨i, hi⟩, b) ∉
        App.suggest_alternatives base sfx resps) := by
  refine ⟨?_, ?_, ?_, ?_, ?_⟩
  · by_cases hE : (((App.altCandidates base sfx).zip resps).filterMap
        App.parseEntry).isEmpty
    · simp [App.suggest_alternatives, hE]
    · simp only [App.suggest_alternatives, hE, if_false]
      calc (((App.altCandidates base sfx).zip resps).filterMap
            App.parseEntry).length
          ≤ ((App.altCandidates base sfx).zip resps).length :=
            List.length_filterMap_le _ _
        _ ≤ (App.altCandidates base sfx).length := by
            rw [List.length_zip]
            exact Nat.min_le_left _ _
  · intro p hp
    by_cases hE : (((App.altCandidates base sfx).zip resps).filterMap
        App.parseEntry).isEmpty
    · simp only [App.suggest_alternatives, hE, if_true] at hp
      obtain ⟨a, ha, hpa⟩ := List.mem_map.mp hp
      rw [← hpa]
      exact ha
    · simp only [App.suggest_alternatives, hE, if_false] at hp
      obtain ⟨q, hq, hpq⟩ := List.mem_filterMap.mp hp
      obtain ⟨s, _, hqe⟩ := parseEntry_some hpq
      rcases q with ⟨a, r⟩
      rw [hqe]
      exact (List.of_mem_zip hq).1
  · intro hall
    have hnil : ((App.altCandidates base sfx).zip resps).filterMap
        App.parseEntry = [] :=
      List.filterMap_eq_nil_iff.mpr fun q hq => parseEntry_none (hall q hq)
    simp [App.suggest_alternatives, hnil]
  · intro i hi hr s hok
    have hzi : i < ((App.altCandidates base sfx).zip resps).length := by
      rw [List.length_zip]
      exact Nat.lt_min.mpr ⟨hi, hr⟩
    have hq : ((App.altCandidates base sfx).zip resps).get ⟨i, hzi⟩ =
        ((App.altCandidates base sfx).get ⟨i, hi⟩, resps.get ⟨i, hr⟩) := by
      simp [List.get_eq_getElem, List.getElem_zip]
    have hqmem : ((App.altCandidates base sfx).get ⟨i, hi⟩,
        resps.get ⟨i, hr⟩) ∈ (App.altCandidates base sfx).zip resps := by
      rw [← hq]
      exact List.get_mem _ i hzi
    have hpe : App.parseEntry ((App.altCandidates base sfx).get ⟨i, hi⟩,
        resps.get ⟨i, hr⟩) = some ((App.altCandidates base sfx).get ⟨i, hi⟩,
          pyLower (pyStrip (s.getD "UNKNOWN")) == "available") := by
      rw [List.get_eq_getElem] at hok
      simp [App.parseEntry, hok]
    have hmem : ((App.altCandidates base sfx).get ⟨i, hi⟩,
        pyLower (pyStrip (s.getD "UNKNOWN")) == "available") ∈
        ((App.altCandidates base sfx).zip resps).filterMap App.parseEntry :=
      List.mem_filterMap.mpr ⟨_, hqmem, hpe⟩
    have hne : ¬(((App.altCandidates base sfx).zip resps).filterMap
        App.parseEntry).isEmpty := by
      rw [List.isEmpty_iff]
      exact List.ne_nil_of_mem hmem
    simpa [App.suggest_alternatives, hne] using hmem
  · intro i hi hr hfail hsome b hmem
    obtain ⟨q0, hq0, hq0p⟩ := hsome
    have hq0some : ∃ e, App.parseEntry q0 = some e := by
      rcases q0 with ⟨a0, r0⟩
      cases r0 <;> simp_all [App.parseEntry, App.TaskResult.isParsed]
    obtain ⟨e0, he0⟩ := hq0some
    have hne : ¬(((App.altCandidates base sfx).zip resps).filterMap
        App.parseEntry).isEmpty := by
      rw [List.isEmpty_iff]
      exact List.ne_nil_of_mem (List.mem_filterMap.mpr ⟨q0, hq0, he0⟩)
    simp only [App.suggest_alternatives, hne, if_false] at hmem
    obtain ⟨q, hq, hpq⟩ := List.mem_filterMap.mp hmem
    obtain ⟨s, hq2, hqe⟩ := parseEntry_some hpq
    obtain ⟨j, hjval⟩ := List.mem_iff_get.mp hq
    rcases j with ⟨j, hj⟩
    have hja : j < (App.altCandidates base sfx).length :=
      List.lt_length_left_of_zip hj
    have hjr : j < resps.length := List.lt_length_right_of_zip hj
    have hjq : q = ((App.altCandidates base sfx).get ⟨j, hja⟩,
        resps.get ⟨j, hjr⟩) := by
      rw [← hjval]
      simp [List.get_eq_getElem, List.getElem_zip]
    have hfst : (App.altCandidates base sfx).get ⟨j, hja⟩ =
        (App.altCandidates base sfx).get ⟨i, hi⟩ := by
      have := congrArg Prod.fst hqe
      rw [hjq] at this
      exact this.symm
    have hji : (⟨j, hja⟩ : Fin (App.altCandidates base sfx).length) =
        ⟨i, hi⟩ :=
      List.nodup_iff_injective_get.mp (altCandidates_nodup base sfx) hfst
    have hjeq : j = i := congrArg Fin.val hji
    subst hjeq
    have : resps.get ⟨j, hjr⟩ = App.TaskResult.ok s := by
      rw [hjq] at hq2
      exact hq2
    rw [this] at hfail
    simp [App.TaskResult.isParsed] at hfail

/-- C6: `POST /notify` inserts exactly one `notified = false` row for a
well-formed body; a missing domain or email, or an email the pattern
rejects, is answered with a 400 and the table untouched (the validation
sits before any database work in the source); and a failing insert is
rolled back, answered with a 500, and leaves the table unchanged. -/
theorem c6_notify_insert (body : App.NotifyBody) (dbWriteOk : Bool)
    (table : List Row) (newId now : Nat) :
    (pyLower (pyStrip (body.domain.getD "")) ≠ "" →
      pyLower (pyStrip (body.email.getD "")) ≠ "" →
      App.emailMatch (pyLower (pyStrip (body.email.getD ""))) = true →
      dbWriteOk = true →
      (App.subscribe_for_notification body dbWriteOk table newId now).2 =
        table ++ [⟨newId, pyLower (pyStrip (body.domain.getD "")),
          pyLower (pyStrip (body.email.getD "")), false, now, none⟩] ∧
      (App.subscribe_for_notification body dbWriteOk table newId now).1 =
        App.NotifyOutcome.accepted (pyLower (pyStrip (body.domain.getD "")))
          (pyLower (pyStrip (body.email.getD "")))) ∧
    (pyLower (pyStrip (body.domain.getD "")) = "" ∨
      pyLower (pyStrip (body.email.getD "")) = "" ∨
      App.emailMatch (pyLower (pyStrip (body.email.getD ""))) = false →
      (App.subscribe_for_notification body dbWriteOk table newId now).2 =
        table ∧
      ∃ msg, (App.subscribe_for_notification body dbWriteOk table newId now).1 =
        App.NotifyOutcome.clientError msg) ∧
    (pyLower (pyStrip (body.domain.getD "")) ≠ "" →
      pyLower (pyStrip (body.email.getD "")) ≠ "" →
      App.emailMatch (pyLower (pyStrip (body.email.getD ""))) = true →
      dbWriteOk = false →
      (App.subscribe_for_notification body dbWriteOk table newId now).2 =
        table ∧
      (App.subscribe_for_notification body dbWriteOk table newId now).1 =
        App.NotifyOutcome.serverError) := by
  refine ⟨?_, ?_, ?_⟩
  · intro hd he hm hok
    subst hok
    simp [App.subscribe_for_notification, hd, he, hm]
  · intro hbad
    rcases hbad with hd | he | hm
    · simp [App.subscribe_for_notification, hd]
    · simp [App.subscribe_for_notification, he]
    · by_cases hd : pyLower (pyStrip (body.domain.getD "")) = ""
      · simp [App.subscribe_for_notification, hd]
      · by_cases he : pyLower (pyStrip (body.email.getD "")) = ""
        · simp [App.subscribe_for_notification, hd, he]
        · simp [App.subscribe_for_notification, hd, he, hm]
  · intro hd he hm hok
    subst hok
    simp [App.subscribe_for_notification, hd, he, hm]

/-- Closed instance of C6: the documented example body inserts exactly one
pending row into an empty table. -/
theorem c6_notify_insert_witness :
    (App.subscribe_for_notification ⟨some "example.com", some "user@test.com"⟩
        true [] 1 0).2 = [⟨1, "example.com", "user@test.com", false, 0, none⟩] :=
  ((c6_notify_insert ⟨some "example.com", some "user@test.com"⟩ true [] 1 0).1
    (by decide) (by decide) (by decide) rfl).1

/-- C9: the claim states that a missing WHOIS API key makes startup fail
loudly in both processes.  app.py does raise, but notifier.py reads the key
with a bare `os.getenv` and no check: with an empty environment the app
startup errors while the notifier startup succeeds, holding no key at
all. -/
theorem c9_missing_key_counterexample :
    App.app_startup (fun _ => none) =
      Except.error "WHOISXML_API_KEY missing in .env" ∧
    ∃ c, Notifier.notifier_startup (fun _ => none) = Except.ok c ∧
      c.whoisxml_api_key = none := by
  exact ⟨rfl, ⟨_, rfl, rfl⟩⟩

/-- C9 (amended): only the API process fails startup loudly when the WHOIS
key is missing or empty; the notifier process performs no such check — its
startup succeeds with the key stored as absent (its only possible import
failure is an unparseable EMAIL_PORT value). -/
theorem c9_startup_key_check (env : Env) :
    (env "WHOISXML_API_KEY" = none ∨ env "WHOISXML_API_KEY" = some "" →
      App.app_startup env = Except.error "WHOISXML_API_KEY missing in .env") ∧
    (env "EMAIL_PORT" = none →
      ∃ c, Notifier.notifier_startup env = Except.ok c ∧
        c.whoisxml_api_key = env "WHOISXML_API_KEY") := by
  constructor
  · intro hkey
    rcases hkey with hk | hk <;> simp [App.app_startup, hk]
  · intro hport
    refine ⟨⟨env "WHOISXML_API_KEY", env "DB_HOST", env "DB_USER",
      env "DB_PASSWORD", env "DB_NAME", env "EMAIL_HOST", 587,
      env "EMAIL_USER", env "EMAIL_PASSWORD"⟩, ?_, rfl⟩
    simp [Notifier.notifier_startup, hport]

/-- Closed instance of C9 (amended) at the empty environment. -/
theorem c9_startup_key_check_witness :
    App.app_startup (fun _ => none) =
      Except.error "WHOISXML_API_KEY missing in .env" :=
  (c9_startup_key_check (fun _ => none)).1 (Or.inl rfl)

/-- C8: the claim states the poller interval is configurable with a 6-hour
production value.  The sleep between cycles is the literal `time.sleep(30)`:
it is the same 30 seconds whatever the environment holds (nothing is read
from it) and differs from the 6 hours the loop's own log lines announce —
the code contradicts its printed documentation. -/
theorem c8_sleep_hardcoded (env env2 : Env) :
    Notifier.notifier_sleep_seconds env = 30 ∧
    Notifier.notifier_sleep_seconds env = Notifier.notifier_sleep_seconds env2 ∧
    Notifier.notifier_sleep_seconds env ≠ Notifier.announced_sleep_seconds := by
  refine ⟨rfl, rfl, ?_⟩
  show (30 : Nat) ≠ 6 * 60 * 60
  decide

theorem tld_ne_empty {t : String} (h : t ∈ App.TLDS) : t ≠ "" := by
  fin_cases h <;> decide

theorem append_tld_ne_empty {n t : String} (ht : t ≠ "") : n ++ t ≠ "" := by
  intro h
  apply ht
  have hd := congrArg String.data h
  simp only [String.data_append] at hd
  exact String.ext (List.append_eq_nil.mp hd).2

theorem sanitize_dot_free (w : String) : '.' ∉ (App.sanitize_word w).data := by
  intro hmem
  have hp := List.mem_filter.mp hmem
  exact absurd hp.2 (by decide)

theorem dot_free_append {a b : String} (ha : '.' ∉ a.data)
    (hb : '.' ∉ b.data) : '.' ∉ (a ++ b).data := by
  intro hmem
  rw [String.data_append, List.mem_append] at hmem
  rcases hmem with h | h
  · exact ha h
  · exact hb h

theorem prefixes_dot_free : ∀ p ∈ App.PREFIXES, '.' ∉ p.data := by decide

theorem suffixes_dot_free : ∀ s ∈ App.SUFFIXES, '.' ∉ s.data := by decide

theorem ideasList_dot_free {k rsuf : String} (hk : '.' ∉ k.data)
    (hr : '.' ∉ rsuf.data) :
    ∀ x ∈ App.ideasList k rsuf, '.' ∉ x.data := by
  intro x hx
  unfold App.ideasList at hx
  simp only [List.mem_append, List.mem_map, List.mem_flatMap,
    List.mem_cons, List.not_mem_nil, or_false] at hx
  rcases hx with ((⟨pre, hpre, rfl⟩ | ⟨suf, hsuf, hin⟩) | (rfl | rfl)) |
      ⟨pre, hpre, suf, hsuf, rfl⟩
  · exact dot_free_append (prefixes_dot_free pre hpre) hk
  · rcases hin with rfl | rfl
    · exact dot_free_append hk (suffixes_dot_free suf hsuf)
    · exact dot_free_append (dot_free_append hk (by decide))
        (suffixes_dot_free suf hsuf)
  · exact hk
  · exact dot_free_append hk hr
  · exact dot_free_append
      (dot_free_append
        (prefixes_dot_free pre (List.take_subset 3 App.PREFIXES hpre)) hk)
      (suffixes_dot_free suf (List.take_subset 3 App.SUFFIXES hsuf))

theorem append_dot_inj {l1 r1 l2 r2 : List Char} (h1 : '.' ∉ l1)
    (h2 : '.' ∉ l2) (heq : l1 ++ '.' :: r1 = l2 ++ '.' :: r2) :
    l1 = l2 ∧ r1 = r2 := by
  induction l1 generalizing l2 with
  | nil =>
    cases l2 with
    | nil => simpa using heq
    | cons c t =>
      simp only [List.nil_append, List.cons_append, List.cons.injEq] at heq
      exact absurd (heq.1 ▸ List.mem_cons_self c t) h2
  | cons c t ih =>
    cases l2 with
    | nil =>
      simp only [List.cons_append, List.nil_append, List.cons.injEq] at heq
      exact absurd (heq.1.symm ▸ List.mem_cons_self c t) h1
    | cons c2 t2 =>
      simp only [List.cons_append, List.cons.injEq] at heq
      obtain ⟨hc, ht⟩ := heq
      have h1t : '.' ∉ t := fun hm => h1 (List.mem_cons_of_mem _ hm)
      have h2t : '.' ∉ t2 := fun hm => h2 (List.mem_cons_of_mem _ hm)
      obtain ⟨hteq, hreq⟩ := ih h1t h2t ht
      exact ⟨by rw [hc, hteq], hreq⟩

theorem tld_shape {t : String} (h : t ∈ App.TLDS) :
    ∃ body : List Char, t.data = '.' :: body ∧ '.' ∉ body := by
  fin_cases h
  · exact ⟨['c', 'o', 'm'], rfl, by decide⟩
  · exact ⟨['i', 'o'], rfl, by decide⟩
  · exact ⟨['c', 'o'], rfl, by decide⟩
  · exact ⟨['x', 'y', 'z'], rfl, by decide⟩
  · exact ⟨['n', 'e', 't'], rfl, by decide⟩

theorem name_tld_inj {n1 n2 t1 t2 : String} (h1 : '.' ∉ n1.data)
    (h2 : '.' ∉ n2.data) (ht1 : t1 ∈ App.TLDS) (ht2 : t2 ∈ App.TLDS)
    (heq : n1 ++ t1 = n2 ++ t2) : n1 = n2 ∧ t1 = t2 := by
  obtain ⟨b1, hb1, _⟩ := tld_shape ht1
  obtain ⟨b2, hb2, _⟩ := tld_shape ht2
  have hd := congrArg String.data heq
  simp only [String.data_append, hb1, hb2] at hd
  obtain ⟨hn, hb⟩ := append_dot_inj h1 h2 hd
  refine ⟨String.ext hn, String.ext ?_⟩
  rw [hb1, hb2, hb]

theorem endsWithTld_name {b x t : String} (hb : '.' ∉ b.data)
    (hx : '.' ∉ x.data) (hT : t ∈ App.TLDS) :
    App.endsWithTld b (x ++ t) = (x == b) := by
  unfold App.endsWithTld
  by_cases hxe : x = b
  · subst hxe
    have h1 : (App.TLDS.any fun t2 => x ++ t == x ++ t2) = true := by
      rw [List.any_eq_true]
      exact ⟨t, hT, by simp⟩
    rw [h1, beq_self_eq_true]
  · have hrhs : (x == b) = false := beq_eq_false_iff_ne.mpr hxe
    rw [hrhs]
    cases hany : (App.TLDS.any fun t2 => x ++ t == b ++ t2) with
    | false => rfl
    | true =>
      obtain ⟨u, hu, hbe⟩ := List.any_eq_true.mp hany
      exact absurd (name_tld_inj hx hb hT hu (beq_iff_eq.mp hbe)).1 hxe

theorem comb_mem_ideasList {k rsuf suf : String} (hsuf : suf ∈ App.SUFFIXES) :
    k ++ suf ∈ App.ideasList k rsuf := by
  have hB : k ++ suf ∈ App.SUFFIXES.flatMap fun s => [k ++ s, k ++ "-" ++ s] :=
    List.mem_flatMap.mpr ⟨suf, hsuf, List.mem_cons_self _ _⟩
  unfold App.ideasList
  simp only [List.mem_append]
  tauto

theorem generator_core (k rsuf : String) (L : List String)
    (rtld : String → String) (limit : Nat)
    (hkdf : '.' ∉ k.data) (hrdf : '.' ∉ rsuf.data)
    (hrt : ∀ n, rtld n ∈ App.TLDS) (hnd : L.Nodup)
    (hLm : ∀ x, x ∈ L ↔ x ∈ App.ideasList k rsuf) :
    ((L.take limit).map fun n => n ++ rtld n).length ≤ limit ∧
    (∀ s ∈ (L.take limit).map fun n => n ++ rtld n, s ≠ "") ∧
    (∀ s ∈ (L.take limit).map fun n => n ++ rtld n,
      ∃ n t, t ∈ App.TLDS ∧ s = n ++ t) ∧
    ((L.take limit).map fun n => n ++ rtld n).Nodup ∧
    (∀ suf ∈ App.SUFFIXES,
      (((L.take limit).map fun n => n ++ rtld n).filter
        (App.endsWithTld (k ++ suf))).length ≤ 1 ∧
      (L.length ≤ limit →
        (((L.take limit).map fun n => n ++ rtld n).filter
          (App.endsWithTld (k ++ suf))).length = 1)) := by
  have hdf : ∀ x ∈ L.take limit, '.' ∉ x.data := fun x hx =>
    ideasList_dot_free hkdf hrdf x ((hLm x).mp (List.take_subset _ _ hx))
  have htake_nd : (L.take limit).Nodup :=
    List.Nodup.sublist (List.take_sublist limit L) hnd
  refine ⟨?_, ?_, ?_, ?_, ?_⟩
  · rw [List.length_map, List.length_take]
    exact Nat.min_le_left _ _
  · intro s hs
    obtain ⟨n, _, rfl⟩ := List.mem_map.mp hs
    exact append_tld_ne_empty (tld_ne_empty (hrt n))
  · intro s hs
    obtain ⟨n, _, rfl⟩ := List.mem_map.mp hs
    exact ⟨n, rtld n, hrt n, rfl⟩
  · exact List.Nodup.map_on
      (fun x hx y hy hxy =>
        (name_tld_inj (hdf x hx) (hdf y hy) (hrt x) (hrt y) hxy).1)
      htake_nd
  · intro suf hsuf
    have hbdf : '.' ∉ (k ++ suf).data :=
      dot_free_append hkdf (suffixes_dot_free suf hsuf)
    have hfil : ((L.take limit).map fun n => n ++ rtld n).filter
        (App.endsWithTld (k ++ suf)) =
        ((L.take limit).filter
          ((App.endsWithTld (k ++ suf)) ∘ fun n => n ++ rtld n)).map
            fun n => n ++ rtld n :=
      List.filter_map _ _
    have hcongr : (L.take limit).filter
        ((App.endsWithTld (k ++ suf)) ∘ fun n => n ++ rtld n) =
        (L.take limit).filter (· == k ++ suf) :=
      List.filter_congr fun x hx => endsWithTld_name hbdf (hdf x hx) (hrt x)
    have hlen : (((L.take limit).map fun n => n ++ rtld n).filter
        (App.endsWithTld (k ++ suf))).length =
        List.count (k ++ suf) (L.take limit) := by
      rw [hfil, hcongr, List.length_map, List.filter_beq,
        List.length_replicate]
    constructor
    · rw [hlen]
      exact List.nodup_iff_count_le_one.mp htake_nd (k ++ suf)
    · intro hfull
      rw [hlen, List.take_of_length_le hfull]
      exact List.count_eq_one_of_mem hnd
        ((hLm (k ++ suf)).mpr (comb_mem_ideasList hsuf))

/-- C5: the claim asks that exactly one of each literal keyword-plus-suffix
combination appear in the output for every keyword and limit.  Truncation
refutes it: the listing used here is admissible (it is duplicate-free and
lists exactly the inserted ideas, as the accompanying conjuncts record), yet
at limit 0 the generator returns the empty list, in which no combination
appears at all; the source's own default limit of 20 likewise cuts the 30
inserted ideas. -/
theorem c5_truncation_counterexample :
    (App.ideasList (App.sanitize_word "brand") "app").dedup.Nodup ∧
    (∀ x, x ∈ (App.ideasList (App.sanitize_word "brand") "app").dedup ↔
      x ∈ App.ideasList (App.sanitize_word "brand") "app") ∧
    "app" ∈ App.SUFFIXES ∧
    App.generate_domain_ideas "brand" (fun l => l.dedup) "app"
      (fun _ => ".com") 0 = [] :=
  ⟨List.nodup_dedup _, fun _ => List.mem_dedup, by decide, rfl⟩

/-- C5 (amended): with an admissible set enumeration (duplicate-free,
listing exactly the inserted ideas) and the random draws taken from the
configured lists, the generator returns at most `limit` entries, all
non-empty, each some name followed by a configured TLD, with no duplicate
strings; each literal keyword-plus-suffix combination appears at most once,
and exactly once as soon as `limit` does not truncate the enumeration. -/
theorem c5_generator_behaviour (keyword : String)
    (setList : List String → List String) (rsuf : String)
    (rtld : String → String) (limit : Nat)
    (hrs : rsuf ∈ App.SUFFIXES) (hrt : ∀ n, rtld n ∈ App.TLDS)
    (hnd : (setList (App.ideasList (App.sanitize_word keyword) rsuf)).Nodup)
    (hLm : ∀ x, x ∈ setList (App.ideasList (App.sanitize_word keyword) rsuf) ↔
      x ∈ App.ideasList (App.sanitize_word keyword) rsuf) :
    (App.generate_domain_ideas keyword setList rsuf rtld limit).length ≤
      limit ∧
    (∀ s ∈ App.generate_domain_ideas keyword setList rsuf rtld limit,
      s ≠ "") ∧
    (∀ s ∈ App.generate_domain_ideas keyword setList rsuf rtld limit,
      ∃ n t, t ∈ App.TLDS ∧ s = n ++ t) ∧
    (App.generate_domain_ideas keyword setList rsuf rtld limit).Nodup ∧
    (∀ suf ∈ App.SUFFIXES,
      ((App.generate_domain_ideas keyword setList rsuf rtld limit).filter
        (App.endsWithTld (App.sanitize_word keyword ++ suf))).length ≤ 1 ∧
      ((setList (App.ideasList (App.sanitize_word keyword) rsuf)).length ≤
          limit →
        ((App.generate_domain_ideas keyword setList rsuf rtld limit).filter
          (App.endsWithTld (App.sanitize_word keyword ++ suf))).length = 1)) :=
  generator_core (App.sanitize_word keyword) rsuf
    (setList (App.ideasList (App.sanitize_word keyword) rsuf)) rtld limit
    (sanitize_dot_free keyword) (suffixes_dot_free rsuf hrs) hrt hnd hLm

/-- Closed instance of C5 (amended): without truncation (limit 40) exactly
one generated entry carries the base brandapp. -/
theorem c5_generator_behaviour_witness :
    ((App.generate_domain_ideas "brand" (fun l => l.dedup) "app"
        (fun _ => ".com") 40).filter
      (App.endsWithTld (App.sanitize_word "brand" ++ "app"))).length = 1 :=
  ((c5_generator_behaviour "brand" (fun l => l.dedup) "app" (fun _ => ".com")
      40 (by decide) (fun _ => show ".com" ∈ App.TLDS by decide)
      (List.nodup_dedup _)
      (fun _ => List.mem_dedup)).2.2.2.2 "app" (by decide)).2 (by decide)
